import Mathlib

/-!
Shallow embedding of `src/income_tax_data_analyzer.py`.

Numbers that Python holds as floats (bracket counts, totals, interpolated
incomes) are modelled as exact rationals `ℚ`.  Python's `ZeroDivisionError`
(raised by `/` when the divisor is zero) is modelled by the error value
`PyExn.zeroDivisionError`, and a function that may raise it returns
`Except PyExn ℚ`.  A call to `sys.exit()` (process termination) is modelled
by the distinguished outcome `ReadResult.processExit`, which is *not* a
value returned to the caller.
-/

namespace IncomeTax

/-- Python exceptions that the embedded code can raise. -/
inductive PyExn where
  | zeroDivisionError
  deriving DecidableEq, Repr

/-- The dictionary built by `read_in_data` (see the docstring at the top of
the source file): zipcode, the six bracket counts, their total, and the
fixed lower/upper bracket bounds. -/
structure DataDict where
  zipcode : String
  counts : List ℚ
  total : ℚ
  lowerbounds : List ℚ
  upperbounds : List ℚ
  deriving Repr

/-- The fixed lower bounds `[1, 25000, 50000, 75000, 100000, 200000]`. -/
def fixedLowerbounds : List ℚ := [1, 25000, 50000, 75000, 100000, 200000]

/-- The fixed upper bounds `[24999, 49999, 74999, 99999, 199999, 10000000]`. -/
def fixedUpperbounds : List ℚ := [24999, 49999, 74999, 99999, 199999, 10000000]

/-- One row of the input table, with the three columns the program reads:
`zipcode`, `agi_stub` (bracket index 1..6) and `N1` (return count).
`N1 = none` models a non-numeric count field, on which Python's
`float(...)` raises. -/
structure Row where
  zipcode : Int
  agi_stub : Int
  N1 : Option ℚ
  deriving Repr

/-- Outcome of `read_in_data`: either the data dictionary, or process
termination via `sys.exit()` (the bare `except: sys.exit()` in the source). -/
inductive ReadResult where
  | ok (d : DataDict)
  | processExit
  deriving Repr

/-- The rows of the table whose `zipcode` column equals the query zipcode:
`df_full[df_full['zipcode'] == int(zipcode)]`. -/
def zoneRows (zipcode : Int) (table : List Row) : List Row :=
  table.filter (fun r => r.zipcode = zipcode)

/-- The first row with the given `agi_stub` value:
`df[df['agi_stub'] == i]['N1'].iloc[0]`.  `none` models the `IndexError`
raised by `.iloc[0]` on an empty selection. -/
def stubRow (rows : List Row) (i : Int) : Option Row :=
  (rows.filter (fun r => r.agi_stub = i)).head?

/-- The loop `for i in range(1, 7)` of `read_in_data`: look up each bracket
row, read its count, append it and accumulate the total.  `none` models the
`sys.exit()` taken when the row is missing or the count is non-numeric
(the bare `except` catches both). -/
def readCounts (rows : List Row) : List Int → Option (List ℚ × ℚ)
  | [] => some ([], 0)
  | i :: is =>
    match stubRow rows i with
    | none => none
    | some r =>
      match r.N1 with
      | none => none
      | some c =>
        match readCounts rows is with
        | none => none
        | some (cs, t) => some (c :: cs, c + t)

/-- Embedding of `read_in_data(zipcode, filename)`: the table stands for the
already-loaded CSV.  Builds the data dictionary with the fixed bounds, or
terminates the process. -/
def read_in_data (zipcode : Int) (table : List Row) : ReadResult :=
  match readCounts (zoneRows zipcode table) [1, 2, 3, 4, 5, 6] with
  | none => ReadResult.processExit
  | some (cs, t) =>
    ReadResult.ok
      { zipcode := toString zipcode
        counts := cs
        total := t
        lowerbounds := fixedLowerbounds
        upperbounds := fixedUpperbounds }

/-- Embedding of `lin_approx(x_1, y_1, x_2, y_2, x_0)`:
`slope = (y_2-y_1)/(x_2-x_1); return slope*(x_0 - x_1) + y_1`.
Raises `ZeroDivisionError` when `x_2 - x_1 = 0`, as Python division does. -/
def lin_approx (x_1 y_1 x_2 y_2 x_0 : ℚ) : Except PyExn ℚ :=
  if x_2 - x_1 = 0 then Except.error PyExn.zeroDivisionError
  else Except.ok ((y_2 - y_1) / (x_2 - x_1) * (x_0 - x_1) + y_1)

/-- Embedding of `compute_mean(data_dict)`: numerator is
`Σ counts[i] * (lowerbounds[i] + upperbounds[i]) / 2` over the zipped
triples, and the result is `numerator / total`; the final division raises
`ZeroDivisionError` when `total = 0`. -/
def compute_mean (d : DataDict) : Except PyExn ℚ :=
  let numerator :=
    ((d.lowerbounds.zip d.upperbounds).zip d.counts).foldl
      (fun acc t => acc + t.2 * ((t.1.1 + t.1.2) / 2)) 0
  if d.total = 0 then Except.error PyExn.zeroDivisionError
  else Except.ok (numerator / d.total)

/-- The boundary sequence `brackets = [1, 25000, 50000, 75000, 100000,
200000, 10000000]` of `compute_median`. -/
def brackets : List ℚ := [1, 25000, 50000, 75000, 100000, 200000, 10000000]

/-- The `for current_count in data_dict['counts']` loop of `compute_median`:
`k` is `bracket_number`, `rt` is `running_total_returns`, `mx` is
`median_x`.  Falling off the end returns the initial sentinel `result = -1`. -/
def medianLoop (mx : ℚ) : List ℚ → Nat → ℚ → Except PyExn ℚ
  | [], _, _ => Except.ok (-1)
  | c :: cs, k, rt =>
    let rt' := rt + c
    if rt' > mx then
      lin_approx (rt' - c) (brackets.getD k 0) rt' (brackets.getD (k + 1) 0) mx
    else
      medianLoop mx cs (k + 1) rt'

/-- Embedding of `compute_median(data_dict)`: `median_x = total // 2`
(float floor division, modelled by `⌊total / 2⌋`), then the bracket walk. -/
def compute_median (d : DataDict) : Except PyExn ℚ :=
  medianLoop ((⌊d.total / 2⌋ : ℤ) : ℚ) d.counts 0 0

/-- Spec example 1: all ten returns in the first bracket. -/
def recExample1 : DataDict :=
  { zipcode := "98115", counts := [10, 0, 0, 0, 0, 0], total := 10
    lowerbounds := fixedLowerbounds, upperbounds := fixedUpperbounds }

/-- Spec example 3: ten returns split over the first two brackets. -/
def recExample3 : DataDict :=
  { zipcode := "98115", counts := [5, 5, 0, 0, 0, 0], total := 10
    lowerbounds := fixedLowerbounds, upperbounds := fixedUpperbounds }

/-- Spec example 2: an empty zone, all counts and the total zero. -/
def recZero : DataDict :=
  { zipcode := "98115", counts := [0, 0, 0, 0, 0, 0], total := 0
    lowerbounds := fixedLowerbounds, upperbounds := fixedUpperbounds }

/-- A malformed record: zero counts but a negative total, the shape that
reaches the unguarded division of `lin_approx`. -/
def recNegTotal : DataDict :=
  { zipcode := "98115", counts := [0, 0, 0, 0, 0, 0], total := -1
    lowerbounds := fixedLowerbounds, upperbounds := fixedUpperbounds }

/-- A well-formed six-row table for one zone. -/
def tableExample : List Row :=
  [⟨98115, 1, some 5⟩, ⟨98115, 2, some 5⟩, ⟨98115, 3, some 0⟩,
   ⟨98115, 4, some 0⟩, ⟨98115, 5, some 0⟩, ⟨98115, 6, some 0⟩]

/-- The record the aggregator builds from `tableExample`. -/
def recFromTable : DataDict :=
  { zipcode := toString (98115 : Int), counts := [5, 5, 0, 0, 0, 0], total := 10
    lowerbounds := fixedLowerbounds, upperbounds := fixedUpperbounds }

/-- A one-row table whose count field is non-numeric. -/
def tableMalformed : List Row := [⟨12345, 1, none⟩]

/-! Helper lemmas. -/

/-- The bracket boundaries are at least 1, strictly increasing, and at most
10000000, at every index a six-count walk can reach. -/
theorem bracketFacts (k : ℕ) (hk : k ≤ 5) :
    1 ≤ brackets.getD k 0 ∧ brackets.getD k 0 < brackets.getD (k + 1) 0 ∧
      brackets.getD (k + 1) 0 ≤ 10000000 := by
  interval_cases k <;> norm_num [brackets]

/-- Unfolding of the mean numerator fold over three zipped six-element
lists. -/
theorem foldl_mean_six (l0 l1 l2 l3 l4 l5 u0 u1 u2 u3 u4 u5 q0 q1 q2 q3 q4 q5 : ℚ) :
    (([l0, l1, l2, l3, l4, l5].zip [u0, u1, u2, u3, u4, u5]).zip
        [q0, q1, q2, q3, q4, q5]).foldl
      (fun acc t => acc + t.2 * ((t.1.1 + t.1.2) / 2)) 0 =
    0 + q0 * ((l0 + u0) / 2) + q1 * ((l1 + u1) / 2) + q2 * ((l2 + u2) / 2)
      + q3 * ((l3 + u3) / 2) + q4 * ((l4 + u4) / 2) + q5 * ((l5 + u5) / 2) := rfl

/-- Unfolding of `lin_approx` when the denominator is nonzero. -/
theorem lin_approx_ok (x_1 y_1 x_2 y_2 x_0 : ℚ) (h : x_2 - x_1 ≠ 0) :
    lin_approx x_1 y_1 x_2 y_2 x_0 =
      Except.ok ((y_2 - y_1) / (x_2 - x_1) * (x_0 - x_1) + y_1) := by
  rw [lin_approx, if_neg h]

/-- On an increasing segment, interpolating at a point of `[x_1, x_2)`
yields a value of `[y_1, y_2)`. -/
theorem lin_approx_bounds (x_1 y_1 x_2 y_2 x_0 : ℚ)
    (h1 : x_1 ≤ x_0) (h2 : x_0 < x_2) (hy : y_1 < y_2) :
    ∃ v, lin_approx x_1 y_1 x_2 y_2 x_0 = Except.ok v ∧ y_1 ≤ v ∧ v < y_2 := by
  have hx : x_1 < x_2 := lt_of_le_of_lt h1 h2
  have hne : x_2 - x_1 ≠ 0 := ne_of_gt (by linarith)
  refine ⟨_, lin_approx_ok x_1 y_1 x_2 y_2 x_0 hne, ?_, ?_⟩
  · have hs : 0 ≤ (y_2 - y_1) / (x_2 - x_1) * (x_0 - x_1) :=
      mul_nonneg (div_nonneg (by linarith) (by linarith)) (by linarith)
    linarith
  · have hlt : (y_2 - y_1) / (x_2 - x_1) * (x_0 - x_1) < y_2 - y_1 := by
      rw [div_mul_eq_mul_div, div_lt_iff₀ (by linarith)]
      have := mul_lt_mul_of_pos_left (show x_0 - x_1 < x_2 - x_1 by linarith)
        (show (0:ℚ) < y_2 - y_1 by linarith)
      linarith
    linarith

/-- Bracket walk, main invariant: starting at index `k` with running total
`rt ≤ mx`, non-negative counts whose sum pushes the running total past `mx`,
and at most `6 - k` counts left, the walk returns an interpolated value in
`[1, 10000000]`. -/
theorem medianLoop_bounds (mx : ℚ) :
    ∀ (cs : List ℚ) (k : ℕ) (rt : ℚ),
      k + cs.length ≤ 6 → (∀ c ∈ cs, 0 ≤ c) → rt ≤ mx → mx < rt + cs.sum →
      ∃ v, medianLoop mx cs k rt = Except.ok v ∧ 1 ≤ v ∧ v ≤ 10000000 := by
  intro cs
  induction cs with
  | nil =>
    intro k rt _ _ hrt hlt
    simp only [List.sum_nil, add_zero] at hlt
    exact absurd hrt (not_le.mpr hlt)
  | cons c cs ih =>
    intro k rt hk hnn hrt hlt
    have hk5 : k ≤ 5 := by
      simp only [List.length_cons] at hk
      omega
    obtain ⟨hy1, hylt, hy2⟩ := bracketFacts k hk5
    rw [medianLoop]
    by_cases hbr : rt + c > mx
    · rw [if_pos hbr]
      have hx1 : rt + c - c = rt := by ring
      obtain ⟨v, hv, hvy1, hvy2⟩ :=
        lin_approx_bounds (rt + c - c) (brackets.getD k 0) (rt + c)
          (brackets.getD (k + 1) 0) mx (by rw [hx1]; exact hrt) hbr hylt
      exact ⟨v, hv, le_trans hy1 hvy1, le_trans (le_of_lt hvy2) hy2⟩
    · rw [if_neg hbr]
      refine ih (k + 1) (rt + c) ?_ ?_ (le_of_not_lt hbr) ?_
      · simp only [List.length_cons] at hk
        omega
      · exact fun x hx => hnn x (List.mem_cons_of_mem c hx)
      · simp only [List.sum_cons] at hlt
        linarith

/-- Bracket walk, break-point characterization: if every running total
through the counts of `cs₁` stays at or below `mx` and the next count `c`
pushes it past `mx`, the walk breaks there and calls `lin_approx` with
`x_1` the cumulative count before that bracket, `x_2` the cumulative count
through it, and the two adjacent bracket boundaries. -/
theorem medianLoop_break (mx : ℚ) :
    ∀ (cs₁ : List ℚ) (c : ℚ) (cs₂ : List ℚ) (k : ℕ) (rt : ℚ),
      (∀ i < cs₁.length, rt + (cs₁.take (i + 1)).sum ≤ mx) →
      mx < rt + cs₁.sum + c →
      medianLoop mx (cs₁ ++ c :: cs₂) k rt =
        lin_approx (rt + cs₁.sum) (brackets.getD (k + cs₁.length) 0)
          (rt + cs₁.sum + c) (brackets.getD (k + cs₁.length + 1) 0) mx := by
  intro cs₁
  induction cs₁ with
  | nil =>
    intro c cs₂ k rt _ hbr
    simp only [List.sum_nil, add_zero] at hbr
    simp only [List.nil_append, List.sum_nil, List.length_nil, add_zero]
    rw [medianLoop, if_pos hbr]
    have hx1 : rt + c - c = rt := by ring
    rw [hx1]
  | cons d cs₁ ih =>
    intro c cs₂ k rt hpre hbr
    have hd : rt + d ≤ mx := by
      have := hpre 0 (by simp)
      simpa using this
    simp only [List.cons_append]
    rw [medianLoop, if_neg (not_lt.mpr hd)]
    have := ih c cs₂ (k + 1) (rt + d) ?_ ?_
    · rw [this]
      have h1 : rt + d + cs₁.sum = rt + (d :: cs₁).sum := by
        simp only [List.sum_cons]; ring
      have h2 : k + 1 + cs₁.length = k + (d :: cs₁).length := by
        simp only [List.length_cons]; omega
      rw [h1, h2]
    · intro i hi
      have := hpre (i + 1) (by simpa using Nat.succ_lt_succ hi)
      simpa [add_assoc] using this
    · simp only [List.sum_cons] at hbr
      linarith

/-- Bracket walk, fall-through: if every running total stays at or below
`mx`, the walk completes without a break and `result` keeps its initial
sentinel value `-1`. -/
theorem medianLoop_sentinel (mx : ℚ) :
    ∀ (cs : List ℚ) (k : ℕ) (rt : ℚ),
      (∀ i < cs.length, rt + (cs.take (i + 1)).sum ≤ mx) →
      medianLoop mx cs k rt = Except.ok (-1) := by
  intro cs
  induction cs with
  | nil => intro k rt _; rw [medianLoop]
  | cons c cs ih =>
    intro k rt hpre
    have hc : rt + c ≤ mx := by
      have := hpre 0 (by simp)
      simpa using this
    rw [medianLoop, if_neg (not_lt.mpr hc)]
    refine ih (k + 1) (rt + c) fun i hi => ?_
    have := hpre (i + 1) (by simpa using Nat.succ_lt_succ hi)
    simpa [add_assoc] using this

/-- Reading the six bracket counts preserves the invariants: one count per
requested bracket index, and the accumulated total is their sum. -/
theorem readCounts_invariant (rows : List Row) :
    ∀ (is : List Int) (cs : List ℚ) (t : ℚ),
      readCounts rows is = some (cs, t) → cs.length = is.length ∧ t = cs.sum := by
  intro is
  induction is with
  | nil =>
    intro cs t h
    simp only [readCounts, Option.some.injEq, Prod.mk.injEq] at h
    obtain ⟨h1, h2⟩ := h
    subst h1; subst h2
    simp
  | cons i is ih =>
    intro cs t h
    rw [readCounts] at h
    cases hr : stubRow rows i with
    | none => simp [hr] at h
    | some r =>
      cases hn : r.N1 with
      | none => simp [hr, hn] at h
      | some c =>
        cases hrc : readCounts rows is with
        | none => simp [hr, hn, hrc] at h
        | some p =>
          obtain ⟨cs', t'⟩ := p
          simp only [hr, hn, hrc, Option.some.injEq, Prod.mk.injEq] at h
          obtain ⟨h1, h2⟩ := h
          obtain ⟨hl, hs⟩ := ih cs' t' hrc
          subst h1; subst h2
          simp [hl, hs]

/-- Reading the bracket counts fails as soon as one requested bracket index
has no matching row, or its first matching row has a non-numeric count. -/
theorem readCounts_fail (rows : List Row) :
    ∀ (is : List Int) (i : Int), i ∈ is →
      (stubRow rows i = none ∨ ∃ r, stubRow rows i = some r ∧ r.N1 = none) →
      readCounts rows is = none := by
  intro is
  induction is with
  | nil => intro i hi; exact absurd hi (by simp)
  | cons j is ih =>
    intro i hi hfail
    rw [readCounts]
    rcases List.mem_cons.mp hi with hj | hmem
    · subst hj
      rcases hfail with hnone | ⟨r, hr, hn⟩
      · rw [hnone]
      · simp only [hr, hn]
    · cases hr : stubRow rows j with
      | none => rfl
      | some r =>
        cases hn : r.N1 with
        | none => simp only [hr, hn]
        | some c => simp only [hr, hn, ih i hmem hfail]

/-! Claim theorems. -/

/-- C2: for every record with six bracket counts, the fixed lower/upper
bounds, and `total > 0`, `compute_mean` returns the weighted average of
bracket midpoints `(Σ_i counts[i] * (lowerbounds[i] + upperbounds[i]) / 2)
/ total`; in particular for counts `[10,0,0,0,0,0]`, total `10`, it
returns `12500`. -/
theorem compute_mean_weighted_midpoint_formula (d : DataDict)
    (c0 c1 c2 c3 c4 c5 : ℚ)
    (hc : d.counts = [c0, c1, c2, c3, c4, c5])
    (hlb : d.lowerbounds = fixedLowerbounds)
    (hub : d.upperbounds = fixedUpperbounds)
    (ht : 0 < d.total) :
    compute_mean d = Except.ok
      ((c0 * ((1 + 24999) / 2) + c1 * ((25000 + 49999) / 2)
        + c2 * ((50000 + 74999) / 2) + c3 * ((75000 + 99999) / 2)
        + c4 * ((100000 + 199999) / 2) + c5 * ((200000 + 10000000) / 2))
        / d.total) ∧
    compute_mean recExample1 = Except.ok 12500 := by
  constructor
  · simp only [compute_mean, hc, hlb, hub, fixedLowerbounds, fixedUpperbounds]
    rw [foldl_mean_six, zero_add, if_neg (ne_of_gt ht)]
  · norm_num [compute_mean, recExample1, fixedLowerbounds, fixedUpperbounds]

/-- C2 witness: the general formula evaluated on the record of spec
example 1. -/
theorem compute_mean_weighted_midpoint_formula_witness :
    compute_mean recExample1 = Except.ok 12500 :=
  (compute_mean_weighted_midpoint_formula recExample1 10 0 0 0 0 0
    (by norm_num [recExample1]) (by norm_num [recExample1])
    (by norm_num [recExample1]) (by norm_num [recExample1])).2

/-- C5: for every record with `total = 0`, `compute_mean` fails with the
typed division error (Python's `ZeroDivisionError`, the spec's
`DivisionUndefined`) rather than returning a number. -/
theorem compute_mean_zero_total_division_error (d : DataDict)
    (h : d.total = 0) :
    compute_mean d = Except.error PyExn.zeroDivisionError := by
  simp [compute_mean, h]

/-- C5 witness: the zero record of spec example 2. -/
theorem compute_mean_zero_total_division_error_witness :
    compute_mean recZero = Except.error PyExn.zeroDivisionError :=
  compute_mean_zero_total_division_error recZero (by norm_num [recZero])

/-- C4 counterexample: on the all-zero record, `compute_median` silently
returns the numeric sentinel `-1` to the caller; it does not signal a
typed `EstimationFailed` failure. -/
theorem compute_median_sentinel_cex :
    compute_median recZero = Except.ok (-1) := by
  norm_num [compute_median, medianLoop, recZero]

/-- C4 as amended: when no bracket makes the running total exceed
`median_x = ⌊total / 2⌋`, `compute_median` returns the initial sentinel
value `-1` (as its own docstring states), rather than signalling a typed
`EstimationFailed` failure. -/
theorem compute_median_fallthrough_sentinel (d : DataDict)
    (h : ∀ i < d.counts.length,
      ((d.counts.take (i + 1)).sum) ≤ ((⌊d.total / 2⌋ : ℤ) : ℚ)) :
    compute_median d = Except.ok (-1) := by
  rw [compute_median]
  apply medianLoop_sentinel
  intro i hi
  simpa using h i hi

/-- C4 witness: the amended fall-through statement on the all-zero record. -/
theorem compute_median_fallthrough_sentinel_witness :
    compute_median recZero = Except.ok (-1) :=
  compute_median_fallthrough_sentinel recZero (by
    intro i hi
    norm_num [recZero] at hi ⊢
    interval_cases i <;> norm_num)

/-- C6 counterexample: on the record with zero counts and total `-1`, the
walk breaks at bracket 0 with `x_1 = x_2 = 0` and the division inside
`lin_approx` is not guarded: it raises `ZeroDivisionError` (an unhandled
exception), not a typed `EstimationFailed` failure. -/
theorem compute_median_divzero_unguarded_cex :
    compute_median recNegTotal = Except.error PyExn.zeroDivisionError := by
  norm_num [compute_median, medianLoop, lin_approx, recNegTotal]

/-- C6 as amended: for every record whose counts make `x_1 = x_2` at the
target bracket — which forces the break to happen at bracket 0 with
`counts[0] = 0` and `⌊total / 2⌋ < 0` — the interpolation's division by
zero is unguarded and raises `ZeroDivisionError`; the result is never an
infinite or NaN value (Python raises instead of producing one). -/
theorem compute_median_divzero_raises (d : DataDict) (cs : List ℚ)
    (hc : d.counts = 0 :: cs) (hneg : d.total < 0) :
    compute_median d = Except.error PyExn.zeroDivisionError := by
  have hmx : ((⌊d.total / 2⌋ : ℤ) : ℚ) < 0 := by
    have h2 : d.total / 2 < 0 := by linarith
    have : ¬ (0 : ℤ) ≤ ⌊d.total / 2⌋ := by
      rw [Int.floor_nonneg]
      exact not_le.mpr h2
    exact_mod_cast not_le.mp this
  rw [compute_median, hc, medianLoop]
  rw [if_pos (by linarith : (0 : ℚ) + 0 > ((⌊d.total / 2⌋ : ℤ) : ℚ))]
  rw [lin_approx, if_pos (by ring)]

/-- C6 witness: the amended statement on the zero-count, negative-total
record. -/
theorem compute_median_divzero_raises_witness :
    compute_median recNegTotal = Except.error PyExn.zeroDivisionError :=
  compute_median_divzero_raises recNegTotal [0, 0, 0, 0, 0]
    (by norm_num [recNegTotal]) (by norm_num [recNegTotal])

/-- C3 counterexample: querying a zone absent from the table makes the
aggregator terminate the whole process (`sys.exit()`, modelled as
`processExit`); it does not report a typed `NotFound` failure to the
caller. -/
theorem read_in_data_missing_zone_exits_cex :
    read_in_data 99999 [] = ReadResult.processExit := rfl

/-- C3 as amended: when some required bracket index 1..6 has no matching
row for the zone, or its first matching row has a non-numeric count, the
aggregator terminates the whole process (the `sys.exit()` inside the bare
`except`), instead of signalling a typed `NotFound` / `MalformedData`
failure to the caller. -/
theorem read_in_data_exits_on_missing_or_malformed
    (zipcode : Int) (table : List Row) (i : Int)
    (hi : i ∈ ([1, 2, 3, 4, 5, 6] : List Int))
    (hfail : stubRow (zoneRows zipcode table) i = none ∨
      ∃ r, stubRow (zoneRows zipcode table) i = some r ∧ r.N1 = none) :
    read_in_data zipcode table = ReadResult.processExit := by
  rw [read_in_data, readCounts_fail _ _ i hi hfail]

/-- C3 witness: the amended statement on a table whose only row for the
zone has a non-numeric count. -/
theorem read_in_data_exits_on_missing_or_malformed_witness :
    read_in_data 12345 tableMalformed = ReadResult.processExit :=
  read_in_data_exits_on_missing_or_malformed 12345 tableMalformed 1
    (by norm_num) (Or.inr ⟨⟨12345, 1, none⟩, rfl, rfl⟩)

/-- C9: every record the aggregator returns satisfies
`total = sum(counts)`, has exactly six counts (one per bracket index
1..6, in ascending order), and carries the fixed lower/upper bound
constants. -/
theorem read_in_data_record_invariants
    (zipcode : Int) (table : List Row) (d : DataDict)
    (h : read_in_data zipcode table = ReadResult.ok d) :
    d.total = d.counts.sum ∧ d.counts.length = 6 ∧
      d.lowerbounds = fixedLowerbounds ∧ d.upperbounds = fixedUpperbounds := by
  rw [read_in_data] at h
  cases hrc : readCounts (zoneRows zipcode table) [1, 2, 3, 4, 5, 6] with
  | none => simp [hrc] at h
  | some p =>
    obtain ⟨cs, t⟩ := p
    simp only [hrc, ReadResult.ok.injEq] at h
    obtain ⟨hl, hs⟩ := readCounts_invariant _ _ _ _ hrc
    subst h
    refine ⟨hs, ?_, rfl, rfl⟩
    simpa using hl

/-- C9 witness: the invariants hold for the record built from the
six-row example table. -/
theorem read_in_data_record_invariants_witness :
    recFromTable.total = recFromTable.counts.sum ∧
      recFromTable.counts.length = 6 ∧
      recFromTable.lowerbounds = fixedLowerbounds ∧
      recFromTable.upperbounds = fixedUpperbounds :=
  read_in_data_record_invariants 98115 tableExample recFromTable (by
    norm_num [read_in_data, readCounts, zoneRows, stubRow, tableExample,
      recFromTable, List.filter])

/-- C1: for every record with six bracket counts and `total > 0`,
`compute_median` walks the brackets accumulating the running total and, at
the first bracket where the running total exceeds
`median_rank = ⌊total / 2⌋`, returns
`slope * (median_rank - x_1) + y_1` with
`slope = (y_2 - y_1) / (x_2 - x_1)`, `x_1` the cumulative count before the
bracket, `x_2` the cumulative count through it, and `y_1`, `y_2` the two
adjacent entries of the boundary sequence `brackets`; in particular it
returns `25000` on counts `[5,5,0,0,0,0]` and `12500.5 = 25001/2` on
counts `[10,0,0,0,0,0]` (total `10` each).  The first break bracket is
presented by splitting the counts as `cs₁ ++ c :: cs₂`. -/
theorem compute_median_interpolation_formula (d : DataDict)
    (cs₁ : List ℚ) (c : ℚ) (cs₂ : List ℚ)
    (hc : d.counts = cs₁ ++ c :: cs₂)
    (hlen : d.counts.length = 6)
    (ht : 0 < d.total)
    (hfirst : ∀ i < cs₁.length,
      (cs₁.take (i + 1)).sum ≤ ((⌊d.total / 2⌋ : ℤ) : ℚ))
    (hbr : ((⌊d.total / 2⌋ : ℤ) : ℚ) < cs₁.sum + c) :
    compute_median d = Except.ok
      ((brackets.getD (cs₁.length + 1) 0 - brackets.getD cs₁.length 0)
        / ((cs₁.sum + c) - cs₁.sum)
        * (((⌊d.total / 2⌋ : ℤ) : ℚ) - cs₁.sum) + brackets.getD cs₁.length 0) ∧
    compute_median recExample3 = Except.ok 25000 ∧
    compute_median recExample1 = Except.ok (25001 / 2) := by
  refine ⟨?_, ?_, ?_⟩
  · have hmx0 : (0 : ℚ) ≤ ((⌊d.total / 2⌋ : ℤ) : ℚ) := by
      have h0 : (0 : ℤ) ≤ ⌊d.total / 2⌋ := Int.floor_nonneg.mpr (by positivity)
      exact_mod_cast h0
    have hsum_le : cs₁.sum ≤ ((⌊d.total / 2⌋ : ℤ) : ℚ) := by
      cases cs₁ with
      | nil => simpa using hmx0
      | cons a as =>
        have h := hfirst as.length (by simp)
        simpa [List.take_succ_cons, List.take_length] using h
    have hc0 : 0 < c := by linarith
    have h1 : ∀ i < cs₁.length,
        (0 : ℚ) + (cs₁.take (i + 1)).sum ≤ ((⌊d.total / 2⌋ : ℤ) : ℚ) := by
      intro i hi
      rw [zero_add]
      exact hfirst i hi
    have h2 : ((⌊d.total / 2⌋ : ℤ) : ℚ) < 0 + cs₁.sum + c := by
      rw [zero_add]
      exact hbr
    rw [compute_median, hc, medianLoop_break _ cs₁ c cs₂ 0 0 h1 h2]
    have hne : (0 + cs₁.sum + c) - (0 + cs₁.sum) ≠ 0 := by
      have he : (0 + cs₁.sum + c) - (0 + cs₁.sum) = c := by ring
      rw [he]
      exact ne_of_gt hc0
    rw [lin_approx_ok _ _ _ _ _ hne]
    simp only [zero_add]
  · norm_num [compute_median, medianLoop, lin_approx, brackets, recExample3]
  · norm_num [compute_median, medianLoop, lin_approx, brackets, recExample1]

/-- C1 witness: the interpolation formula applied to the record of spec
example 3, breaking at the second bracket, together with the two spec
examples. -/
theorem compute_median_interpolation_formula_witness :
    compute_median recExample3 = Except.ok 25000 ∧
      compute_median recExample1 = Except.ok (25001 / 2) :=
  (compute_median_interpolation_formula recExample3 [5] 5 [0, 0, 0, 0]
    (by norm_num [recExample3]) (by norm_num [recExample3])
    (by norm_num [recExample3])
    (by
      intro i hi
      norm_num at hi
      subst hi
      norm_num [recExample3])
    (by norm_num [recExample3])).2

/-- C7: for every valid record — six non-negative counts, the fixed
bounds, `total = sum(counts) > 0` — `compute_mean` returns a value within
`[lowerbounds[0], upperbounds[5]] = [1, 10000000]`. -/
theorem compute_mean_within_bounds (d : DataDict) (c0 c1 c2 c3 c4 c5 : ℚ)
    (hc : d.counts = [c0, c1, c2, c3, c4, c5])
    (hnn : ∀ c ∈ d.counts, 0 ≤ c)
    (hlb : d.lowerbounds = fixedLowerbounds)
    (hub : d.upperbounds = fixedUpperbounds)
    (hsum : d.total = d.counts.sum)
    (ht : 0 < d.total) :
    ∃ v, compute_mean d = Except.ok v ∧ 1 ≤ v ∧ v ≤ 10000000 := by
  have h0 : 0 ≤ c0 := hnn c0 (by rw [hc]; simp)
  have h1 : 0 ≤ c1 := hnn c1 (by rw [hc]; simp)
  have h2 : 0 ≤ c2 := hnn c2 (by rw [hc]; simp)
  have h3 : 0 ≤ c3 := hnn c3 (by rw [hc]; simp)
  have h4 : 0 ≤ c4 := hnn c4 (by rw [hc]; simp)
  have h5 : 0 ≤ c5 := hnn c5 (by rw [hc]; simp)
  have htot : d.total = c0 + c1 + c2 + c3 + c4 + c5 := by
    rw [hsum, hc]
    simp [List.sum_cons, List.sum_nil]
    ring
  simp only [compute_mean, hc, hlb, hub, fixedLowerbounds, fixedUpperbounds]
  rw [foldl_mean_six, zero_add, if_neg (ne_of_gt ht)]
  refine ⟨_, rfl, ?_, ?_⟩
  · rw [le_div_iff₀ ht]
    nlinarith
  · rw [div_le_iff₀ ht]
    nlinarith

/-- C7 witness: the mean of the record of spec example 3 lies within the
bracket range. -/
theorem compute_mean_within_bounds_witness :
    ∃ v, compute_mean recExample3 = Except.ok v ∧ 1 ≤ v ∧ v ≤ 10000000 :=
  compute_mean_within_bounds recExample3 5 5 0 0 0 0
    (by norm_num [recExample3])
    (by norm_num [recExample3, List.forall_mem_cons])
    (by norm_num [recExample3]) (by norm_num [recExample3])
    (by norm_num [recExample3, List.sum_cons, List.sum_nil])
    (by norm_num [recExample3])

/-- C8: for every valid record — six non-negative counts,
`total = sum(counts) > 0` — the median interpolation succeeds and the
returned median lies within
`[lowerbounds[0], upperbounds[5]] = [1, 10000000]`. -/
theorem compute_median_within_bounds (d : DataDict)
    (hlen : d.counts.length = 6)
    (hnn : ∀ c ∈ d.counts, 0 ≤ c)
    (hsum : d.total = d.counts.sum)
    (ht : 0 < d.total) :
    ∃ v, compute_median d = Except.ok v ∧ 1 ≤ v ∧ v ≤ 10000000 := by
  rw [compute_median]
  have hmx0 : (0 : ℚ) ≤ ((⌊d.total / 2⌋ : ℤ) : ℚ) := by
    have h0 : (0 : ℤ) ≤ ⌊d.total / 2⌋ := Int.floor_nonneg.mpr (by positivity)
    exact_mod_cast h0
  have hmx1 : ((⌊d.total / 2⌋ : ℤ) : ℚ) < 0 + d.counts.sum := by
    have hfl : ((⌊d.total / 2⌋ : ℤ) : ℚ) ≤ d.total / 2 := Int.floor_le _
    rw [zero_add, ← hsum]
    linarith
  exact medianLoop_bounds _ d.counts 0 0 (by omega) hnn hmx0 hmx1

/-- C8 witness: the median of the record of spec example 1 lies within the
bracket range. -/
theorem compute_median_within_bounds_witness :
    ∃ v, compute_median recExample1 = Except.ok v ∧ 1 ≤ v ∧ v ≤ 10000000 :=
  compute_median_within_bounds recExample1
    (by norm_num [recExample1])
    (by norm_num [recExample1, List.forall_mem_cons])
    (by norm_num [recExample1, List.sum_cons, List.sum_nil])
    (by norm_num [recExample1])

/-- C10: for every valid record — six non-negative counts,
`total = sum(counts) > 0` — the bracket walk always finds a target bracket
(the function never falls through to its `-1` sentinel result), and the
division inside `lin_approx` never divides by zero, so `compute_median`
never raises `ZeroDivisionError`. -/
theorem compute_median_no_divzero_on_valid (d : DataDict)
    (hlen : d.counts.length = 6)
    (hnn : ∀ c ∈ d.counts, 0 ≤ c)
    (hsum : d.total = d.counts.sum)
    (ht : 0 < d.total) :
    (∃ v, compute_median d = Except.ok v ∧ v ≠ -1) ∧
      compute_median d ≠ Except.error PyExn.zeroDivisionError := by
  have hmx0 : (0 : ℚ) ≤ ((⌊d.total / 2⌋ : ℤ) : ℚ) := by
    have h0 : (0 : ℤ) ≤ ⌊d.total / 2⌋ := Int.floor_nonneg.mpr (by positivity)
    exact_mod_cast h0
  have hmx1 : ((⌊d.total / 2⌋ : ℤ) : ℚ) < 0 + d.counts.sum := by
    have hfl : ((⌊d.total / 2⌋ : ℤ) : ℚ) ≤ d.total / 2 := Int.floor_le _
    rw [zero_add, ← hsum]
    linarith
  obtain ⟨v, hv, hv1, _⟩ :=
    medianLoop_bounds ((⌊d.total / 2⌋ : ℤ) : ℚ) d.counts 0 0 (by omega)
      hnn hmx0 hmx1
  have hcm : compute_median d = Except.ok v := by rw [compute_median]; exact hv
  refine ⟨⟨v, hcm, ?_⟩, ?_⟩
  · intro hsent
    rw [hsent] at hv1
    norm_num at hv1
  · rw [hcm]
    exact fun h => Except.noConfusion h

/-- C10 witness: the walk on the record of spec example 3 neither falls
through to the sentinel nor raises. -/
theorem compute_median_no_divzero_on_valid_witness :
    (∃ v, compute_median recExample3 = Except.ok v ∧ v ≠ -1) ∧
      compute_median recExample3 ≠ Except.error PyExn.zeroDivisionError :=
  compute_median_no_divzero_on_valid recExample3
    (by norm_num [recExample3])
    (by norm_num [recExample3, List.forall_mem_cons])
    (by norm_num [recExample3, List.sum_cons, List.sum_nil])
    (by norm_num [recExample3])

end IncomeTax
